import Mathlib

/-!
Verification of the sharp-frames frame-processing modules.

The definitions below are a shallow embedding of the Python modules
`sharp_frames/processing/colorspace.py`, `sharp_frames/processing/gps_extractor.py`
and `sharp_frames/processing/exif_writer.py`, plus a model of the Frame Selector
algorithm described in the design document (its source module is not part of the
inspected tree).  External effects (subprocess probes, the filesystem, the piexif
library, Python's `float` builtin) are modelled as explicit parameters: a probe
outcome value, an environment record, and an abstract string-to-rational parse
function.  Python floats are idealised as rationals.
-/

namespace SharpFrames

/-- Video color primaries (ITU-T H.273), from `colorspace.ColorPrimaries`. -/
inductive ColorPrimaries where
  | BT709
  | BT2020
  | DISPLAY_P3
  | UNKNOWN
deriving DecidableEq, Repr, BEq

/-- Transfer characteristics (gamma/EOTF), from `colorspace.TransferFunction`. -/
inductive TransferFunction where
  | BT709
  | SRGB
  | PQ
  | HLG
  | UNKNOWN
deriving DecidableEq, Repr, BEq

/-- Color matrix coefficients, from `colorspace.ColorMatrix`. -/
inductive ColorMatrix where
  | BT709
  | BT2020_NCL
  | BT2020_CL
  | UNKNOWN
deriving DecidableEq, Repr, BEq

/-- Detected color space information, from `colorspace.VideoColorInfo`. -/
structure VideoColorInfo where
  color_primaries : ColorPrimaries
  transfer_function : TransferFunction
  color_matrix : ColorMatrix
  is_hdr : Bool
  max_luminance : Option ℚ := none
deriving DecidableEq, Repr

/-- `VideoColorInfo.needs_conversion`: convert if not standard BT.709 SDR. -/
def VideoColorInfo.needs_conversion (i : VideoColorInfo) : Bool :=
  if i.is_hdr then true
  else if ¬(i.color_primaries = .BT709 ∨ i.color_primaries = .UNKNOWN) then true
  else if ¬(i.transfer_function = .BT709 ∨ i.transfer_function = .SRGB ∨
            i.transfer_function = .UNKNOWN) then true
  else false

/-- `VideoColorInfo.is_wide_gamut_sdr`: wide gamut primaries without HDR. -/
def VideoColorInfo.is_wide_gamut_sdr (i : VideoColorInfo) : Bool :=
  ((i.color_primaries = .DISPLAY_P3 ∨ i.color_primaries = .BT2020) ∧ ¬i.is_hdr = true : Bool)

/-- ASCII lowercasing of one character, modelling Python's `str.lower` on the
ASCII metadata values ffprobe emits. -/
def lowerChar (c : Char) : Char :=
  if 'A' ≤ c ∧ c ≤ 'Z' then Char.ofNat (c.toNat + 32) else c

/-- ASCII lowercasing of a string, modelling Python's `str.lower`. -/
def lowerStr (s : String) : String := ⟨s.data.map lowerChar⟩

/-- `colorspace._map_color_primaries`: dictionary lookup over the lowercased
value, empty string and unmapped values give `UNKNOWN`. -/
def map_color_primaries (value : String) : ColorPrimaries :=
  if value = "" then .UNKNOWN
  else
    let v := lowerStr value
    if v = "bt709" then .BT709
    else if v = "bt2020" then .BT2020
    else if v = "smpte432" then .DISPLAY_P3
    else .UNKNOWN

/-- `colorspace._map_transfer_function`: dictionary lookup over the lowercased
value, empty string and unmapped values give `UNKNOWN`. -/
def map_transfer_function (value : String) : TransferFunction :=
  if value = "" then .UNKNOWN
  else
    let v := lowerStr value
    if v = "bt709" then .BT709
    else if v = "iec61966-2-1" then .SRGB
    else if v = "smpte2084" then .PQ
    else if v = "arib-std-b67" then .HLG
    else .UNKNOWN

/-- `colorspace._map_color_matrix`: dictionary lookup over the lowercased
value, empty string and unmapped values give `UNKNOWN`. -/
def map_color_matrix (value : String) : ColorMatrix :=
  if value = "" then .UNKNOWN
  else
    let v := lowerStr value
    if v = "bt709" then .BT709
    else if v = "bt2020nc" then .BT2020_NCL
    else if v = "bt2020c" then .BT2020_CL
    else .UNKNOWN

/-- One entry of an ffprobe stream's `side_data_list`. -/
structure SideData where
  side_data_type : Option String
  max_luminance : Option String
deriving Repr

/-- The fields of an ffprobe video-stream record that `_parse_color_info`
reads; a missing key is `none` (Python `dict.get` with a default). -/
structure FFStream where
  color_primaries : Option String
  color_transfer : Option String
  color_space : Option String
  side_data_list : List SideData
deriving Repr

/-- The max-luminance scan of `_parse_color_info`: the last
`Mastering display metadata` entry whose `max_luminance` parses as
`num/denom` (division by zero and parse failures are skipped). `pf` models
Python's `float` builtin (`none` = `ValueError`). -/
def parse_max_luminance (pf : String → Option ℚ) (sd : List SideData) : Option ℚ :=
  sd.foldl (fun acc d =>
    if d.side_data_type = some "Mastering display metadata" then
      let s := d.max_luminance.getD ""
      if s.contains '/' then
        match s.splitOn "/" with
        | [n, m] =>
          match pf n, pf m with
          | some a, some b => if b = 0 then acc else some (a / b)
          | _, _ => acc
        | _ => acc
      else acc
    else acc) none

/-- `colorspace._parse_color_info`: map the categorical fields, derive the HDR
flag from the transfer function alone, and scan side data for max luminance. -/
def parse_color_info (pf : String → Option ℚ) (stream : FFStream) : VideoColorInfo :=
  let primaries := map_color_primaries (stream.color_primaries.getD "unknown")
  let transfer := map_transfer_function (stream.color_transfer.getD "unknown")
  let matrix := map_color_matrix (stream.color_space.getD "unknown")
  let hdr : Bool := transfer = .PQ ∨ transfer = .HLG
  { color_primaries := primaries
    transfer_function := transfer
    color_matrix := matrix
    is_hdr := hdr
    max_luminance := parse_max_luminance pf stream.side_data_list }

/-- `colorspace._default_color_info`: all categorical fields `UNKNOWN`,
not HDR, no peak luminance. -/
def default_color_info : VideoColorInfo :=
  { color_primaries := .UNKNOWN
    transfer_function := .UNKNOWN
    color_matrix := .UNKNOWN
    is_hdr := false }

/-- Outcome of an external ffprobe invocation, as distinguished by the
`try/except` and return-code handling in `detect_color_space` and
`extract_gps_from_video`.  `ok` carries the parsed JSON payload. -/
inductive ProbeOutcome (α : Type) where
  | nonzeroExit
  | timeoutExpired
  | fileNotFound
  | osError
  | jsonDecodeError
  | ok (value : α)
deriving Repr

/-- `colorspace.detect_color_space`: every probe failure and an empty stream
list give the default info; otherwise the first stream is parsed. -/
def detect_color_space (pf : String → Option ℚ)
    (probe : ProbeOutcome (List FFStream)) : VideoColorInfo :=
  match probe with
  | .nonzeroExit => default_color_info
  | .timeoutExpired => default_color_info
  | .fileNotFound => default_color_info
  | .osError => default_color_info
  | .jsonDecodeError => default_color_info
  | .ok streams =>
    match streams with
    | [] => default_color_info
    | stream :: _ => parse_color_info pf stream

/-- `colorspace.is_zscale_available`: read the module-global cache
`_zscale_available`; on a cache miss run the external probe (modelled by the
`probe` input) and store its result.  Returns the availability flag and the
updated cache. -/
def is_zscale_available (cache : Option Bool) (probe : Bool) : Bool × Option Bool :=
  match cache with
  | some b => (b, some b)
  | none => (probe, some probe)

/-- The zscale HDR-to-SDR filter chain literal of `_build_hdr_to_sdr_filter`. -/
def hdr_filter_zscale : String :=
  "zscale=t=linear:npl=100,format=gbrpf32le,zscale=p=bt709,tonemap=hable:desat=0,zscale=t=bt709:m=bt709:r=tv,format=yuv420p"

/-- The fallback filter literal of `_build_hdr_to_sdr_filter`. -/
def hdr_filter_fallback : String := "colorspace=all=bt709:fast=0"

/-- `colorspace._build_hdr_to_sdr_filter`: choose the zscale chain when the
(cached) availability check says yes, the basic fallback otherwise. -/
def build_hdr_to_sdr_filter (cache : Option Bool) (probe : Bool) :
    String × Option Bool :=
  let r := is_zscale_available cache probe
  (if r.1 then hdr_filter_zscale else hdr_filter_fallback, r.2)

/-- `colorspace._build_wide_gamut_to_srgb_filter`. -/
def build_wide_gamut_to_srgb_filter (i : VideoColorInfo) : String :=
  let input_primaries :=
    if i.color_primaries = .DISPLAY_P3 then "smpte432"
    else if i.color_primaries = .BT2020 then "bt2020"
    else "bt709"
  "colorspace=all=bt709:iall=" ++ input_primaries ++ ":fast=0"

/-- `colorspace.build_colorspace_filter`: `none` when no conversion is needed;
the HDR path consults (and may update) the module-global zscale cache; the
wide-gamut SDR path uses the colorspace filter; the remaining branch returns
`none`.  The pair carries the cache state alongside the result. -/
def build_colorspace_filter (i : VideoColorInfo) (cache : Option Bool)
    (probe : Bool) : Option String × Option Bool :=
  if ¬i.needs_conversion then (none, cache)
  else if i.is_hdr then
    let r := build_hdr_to_sdr_filter cache probe
    (some r.1, r.2)
  else if i.is_wide_gamut_sdr then (some (build_wide_gamut_to_srgb_filter i), cache)
  else (none, cache)

/-- GPS coordinate data, from `gps_extractor.GPSData`.  `accuracy` defaults to
`none` as in the dataclass. -/
structure GPSData where
  latitude : ℚ
  longitude : ℚ
  altitude : ℚ
  accuracy : Option ℚ := none
deriving DecidableEq, Repr

/-- Leading and trailing whitespace removal on a character list, modelling
Python's `str.strip()`. -/
def stripChars (s : List Char) : List Char :=
  ((s.dropWhile Char.isWhitespace).reverse.dropWhile Char.isWhitespace).reverse

/-- Match `[+-]\d+\.\d+` (a sign, one or more digits, a dot, one or more
digits) at the head of the character list; return the matched characters and
the rest.  This is the latitude/longitude group of the ISO 6709 pattern. -/
def matchSignedDecimal : List Char → Option (List Char × List Char)
  | [] => none
  | c :: rest =>
    if c = '+' ∨ c = '-' then
      let p1 := rest.span Char.isDigit
      if p1.1 = [] then none
      else
        match p1.2 with
        | '.' :: r2 =>
          let p2 := r2.span Char.isDigit
          if p2.1 = [] then none
          else some (c :: p1.1 ++ '.' :: p2.1, p2.2)
        | _ => none
    else none

/-- Match `[+-]\d+\.?\d*` (a sign, one or more digits, an optional dot with
zero or more digits) at the head of the character list.  This is the optional
altitude group of the ISO 6709 pattern. -/
def matchSignedAltitude : List Char → Option (List Char × List Char)
  | [] => none
  | c :: rest =>
    if c = '+' ∨ c = '-' then
      let p1 := rest.span Char.isDigit
      if p1.1 = [] then none
      else
        match p1.2 with
        | '.' :: r2 =>
          let p2 := r2.span Char.isDigit
          some (c :: p1.1 ++ '.' :: p2.1, p2.2)
        | _ => some (c :: p1.1, p1.2)
    else none

/-- The anchored match of `gps_extractor.parse_iso6709`'s regular expression
`^([+-]\d+\.\d+)([+-]\d+\.\d+)([+-]\d+\.?\d*)?/?$` against a character list:
two mandatory signed decimals, an optional signed altitude, an optional
trailing slash, then end of input.  Returns the three capture groups (the
third is `none` when absent).  Greedy matching is exact here because a digit
run is always followed by a non-digit in the pattern, so no backtracking can
turn a failed greedy parse into a success. -/
def iso6709Match (s : List Char) : Option (String × String × Option String) :=
  match matchSignedDecimal s with
  | none => none
  | some (g1, r1) =>
    match matchSignedDecimal r1 with
    | none => none
    | some (g2, r2) =>
      match matchSignedAltitude r2 with
      | some (g3, r3) =>
        if r3 = [] ∨ r3 = ['/'] then some (⟨g1⟩, ⟨g2⟩, some ⟨g3⟩) else none
      | none =>
        if r2 = [] ∨ r2 = ['/'] then some (⟨g1⟩, ⟨g2⟩, none) else none

/-- `gps_extractor.parse_iso6709`: reject the empty string, strip whitespace,
match the ISO 6709 pattern, convert the groups with `float` (modelled by
`pf`; a `ValueError` on any group makes the whole parse return `none`), with
a missing altitude group defaulting to `0.0`.  The returned record leaves
`accuracy` at its `none` default. -/
def parse_iso6709 (pf : String → Option ℚ) (location_string : String) :
    Option GPSData :=
  if location_string = "" then none
  else
    match iso6709Match (stripChars location_string.data) with
    | none => none
    | some (g1, g2, g3) =>
      match pf g1, pf g2, (match g3 with | some a => pf a | none => some 0) with
      | some lat, some lon, some alt =>
        some { latitude := lat, longitude := lon, altitude := alt }
      | _, _, _ => none

/-- The container-format tags that `extract_gps_from_video` reads
(`format.tags` of the ffprobe JSON); a missing tag is `none`. -/
structure FormatTags where
  location_iso6709 : Option String
  accuracy_horizontal : Option String
deriving Repr

/-- `gps_extractor.extract_gps_from_video`: probe failures give `none`; a
missing or empty location tag gives `none`; a location tag that fails ISO 6709
parsing gives `none`; otherwise the parsed coordinates are returned, with
`accuracy` filled in only when the accuracy tag is present, non-empty and
parses as a float (a `ValueError` there is swallowed, leaving `accuracy`
empty). -/
def extract_gps_from_video (pf : String → Option ℚ)
    (probe : ProbeOutcome FormatTags) : Option GPSData :=
  match probe with
  | .nonzeroExit => none
  | .timeoutExpired => none
  | .fileNotFound => none
  | .osError => none
  | .jsonDecodeError => none
  | .ok tags =>
    match tags.location_iso6709 with
    | none => none
    | some loc =>
      if loc = "" then none
      else
        match parse_iso6709 pf loc with
        | none => none
        | some gps =>
          match tags.accuracy_horizontal with
          | none => some gps
          | some acc =>
            if acc = "" then some gps
            else
              match pf acc with
              | some a => some { gps with accuracy := some a }
              | none => some gps

/-- `exif_writer.decimal_to_dms`: absolute value, then truncate to whole
degrees and minutes and keep seconds to two decimal places, as EXIF rational
pairs.  Python's `int()` truncates toward zero; every truncated quantity here
is non-negative, so the floor coincides with it. -/
def decimal_to_dms (decimal_degrees : ℚ) : (ℤ × ℤ) × (ℤ × ℤ) × (ℤ × ℤ) :=
  let d := |decimal_degrees|
  let degrees : ℤ := ⌊d⌋
  let minutes_float : ℚ := (d - degrees) * 60
  let minutes : ℤ := ⌊minutes_float⌋
  let seconds : ℚ := (minutes_float - minutes) * 60
  ((degrees, 1), (minutes, 1), (⌊seconds * 100⌋, 100))

/-- The GPS IFD that `embed_gps_in_jpeg` builds before handing it to piexif:
hemisphere references, DMS rationals, altitude reference and centimetre
rationals, and the optional positioning-error rational. -/
structure GpsIfd where
  latitude_ref : String
  latitude : (ℤ × ℤ) × (ℤ × ℤ) × (ℤ × ℤ)
  longitude_ref : String
  longitude : (ℤ × ℤ) × (ℤ × ℤ) × (ℤ × ℤ)
  altitude_ref : ℤ
  altitude : ℤ × ℤ
  positioning_error : Option (ℤ × ℤ)
deriving DecidableEq, Repr

/-- The pure GPS-IFD construction inside `exif_writer.embed_gps_in_jpeg`
(lines building `gps_ifd`). -/
def build_gps_ifd (gps : GPSData) : GpsIfd :=
  { latitude_ref := if gps.latitude ≥ 0 then "N" else "S"
    latitude := decimal_to_dms gps.latitude
    longitude_ref := if gps.longitude ≥ 0 then "E" else "W"
    longitude := decimal_to_dms gps.longitude
    altitude_ref := if gps.altitude ≥ 0 then 0 else 1
    altitude := (⌊|gps.altitude| * 100⌋, 100)
    positioning_error := gps.accuracy.map (fun a => (⌊a * 100⌋, 100)) }

/-- Outcome of `piexif.load` as the `try/except` in `embed_gps_in_jpeg`
distinguishes it: success, the specifically-caught `InvalidImageDataError`
(replaced by an empty EXIF structure), or any other exception (which escapes
to the outer handler). -/
inductive LoadOutcome where
  | okData
  | invalidImageData
  | otherError
deriving DecidableEq, Repr

/-- The external effects of `embed_gps_in_jpeg`: whether the JPEG path exists,
how `piexif.load` behaves on it, and whether `piexif.dump` and
`piexif.insert` succeed. -/
structure JpegEnv where
  fileExists : Bool
  load : LoadOutcome
  dumpOk : Bool
  insertOk : Bool
deriving DecidableEq, Repr

/-- `exif_writer.embed_gps_in_jpeg`: `false` when the file does not exist;
a non-`InvalidImageDataError` failure of loading, or any failure of dumping
or inserting the EXIF bytes, is caught by the outer handler and gives
`false`; otherwise the GPS IFD is embedded and the result is `true`. -/
def embed_gps_in_jpeg (env : JpegEnv) (gps : GPSData) : Bool :=
  if ¬env.fileExists then false
  else
    match env.load with
    | .otherError => false
    | _ =>
      let _ifd := build_gps_ifd gps
      env.dumpOk && env.insertOk

/-!
Frame Selector.  The selector module is referenced by the package but its
source is not in the inspected tree; the definitions below are modelled from
the design document's selection algorithm (section 4.3): partition the ordered
candidate sequence into `K` contiguous windows whose sizes differ by at most
one, computed over the full sequence including unusable entries; within each
window pick the usable candidate of maximum sharpness, earliest index on ties;
a window without a usable candidate contributes nothing.  The optional
duplicate-avoidance pass is not configured here (the document's default).
A candidate is `some score` when usable and scored, `none` when unusable.
-/

/-- Modelled from the spec: a scored candidate set in extraction order;
position = `sequence_index`, `some s` = a usable candidate with sharpness
score `s`, `none` = an unusable candidate. -/
abbrev CandidateSet := List (Option ℚ)

/-- Modelled from the spec: the ceil/floor window split — `k` contiguous
windows over `n` positions, the first `n % k` windows one element larger. -/
def windowSizes (n k : ℕ) : List ℕ :=
  (List.range k).map (fun i => n / k + if i < n % k then 1 else 0)

/-- Modelled from the spec: the running-maximum step — keep the
higher-scoring candidate, the earlier one (already held) on ties. -/
def maxStep (acc : Option (ℕ × ℚ)) (p : ℕ × ℚ) : Option (ℕ × ℚ) :=
  match acc with
  | none => some p
  | some q => if p.2 > q.2 then some p else some q

/-- Modelled from the spec: within the window of indices
`[start, start + len)`, the usable candidate of maximum sharpness score,
breaking ties toward the lowest index; `none` when the window holds no usable
candidate. -/
def bestInWindow (cands : CandidateSet) (start len : ℕ) : Option (ℕ × ℚ) :=
  (((List.range' start len).filterMap
    (fun i => (cands.getD i none).map (fun s => (i, s))))).foldl maxStep none

/-- Modelled from the spec: walk the windows left to right, keeping each
window's best usable candidate index when it has one. -/
def selectGo (cands : CandidateSet) : List ℕ → ℕ → List ℕ
  | [], _ => []
  | len :: rest, start =>
    match bestInWindow cands start len with
    | none => selectGo cands rest (start + len)
    | some p => p.1 :: selectGo cands rest (start + len)

/-- Modelled from the spec: the Frame Selector's selected indices for a scored
candidate set and target count `k`, in ascending `sequence_index` order. -/
def select_frames (cands : CandidateSet) (k : ℕ) : List ℕ :=
  selectGo cands (windowSizes cands.length k) 0

/-- Whether the candidate at index `i` is usable. -/
def usableAt (cands : CandidateSet) (i : ℕ) : Bool :=
  (cands.getD i none).isSome

/-- The indices of the usable candidates. -/
def usableIndices (cands : CandidateSet) : List ℕ :=
  (List.range cands.length).filter (usableAt cands)

/-- The number of usable candidates. -/
def usableCount (cands : CandidateSet) : ℕ :=
  (usableIndices cands).length

/-- A concrete instantiation of the abstract float-parse parameter, used to
evaluate the parameterised definitions at concrete inputs. -/
def pfSample : String → Option ℚ :=
  fun s =>
    if s = "+10.5" then some (21 / 2)
    else if s = "+010.5" then some (21 / 2)
    else none

/-- Claim C2, counterexample: a `VideoColorInfo` whose `is_hdr` flag is unset
while its transfer function is PQ needs conversion, yet
`build_colorspace_filter` returns no filter string for it, so "`None` iff no
conversion needed" fails as stated. -/
theorem C2_counterexample :
    (VideoColorInfo.needs_conversion ⟨.BT709, .PQ, .UNKNOWN, false, none⟩ = true) ∧
    (build_colorspace_filter ⟨.BT709, .PQ, .UNKNOWN, false, none⟩ none true).1 = none := by
  constructor
  · rfl
  · rfl

/-- Claim C2, amended: `build_colorspace_filter` returns `None` whenever no
conversion is needed, and for every `VideoColorInfo` whose `is_hdr` flag
agrees with its transfer function (PQ or HLG), as every info produced by the
detector does, the result is `None` exactly when no conversion is needed. -/
theorem C2_filter_none_iff (i : VideoColorInfo) (cache : Option Bool) (probe : Bool)
    (h : i.is_hdr = true ↔ (i.transfer_function = .PQ ∨ i.transfer_function = .HLG)) :
    ((build_colorspace_filter i cache probe).1 = none ↔ i.needs_conversion = false) := by
  obtain ⟨p, t, m, hdr, lum⟩ := i
  cases p <;> cases t <;> cases hdr <;>
    simp_all [build_colorspace_filter, VideoColorInfo.needs_conversion,
      VideoColorInfo.is_wide_gamut_sdr, build_hdr_to_sdr_filter, is_zscale_available]

/-- Claim C2, witness: the amended theorem applied to an HDR10-style info. -/
theorem C2_filter_none_iff_witness :
    ((VideoColorInfo.mk .BT2020 .PQ .BT2020_NCL true none).is_hdr = true ↔
      ((VideoColorInfo.mk .BT2020 .PQ .BT2020_NCL true none).transfer_function = .PQ ∨
       (VideoColorInfo.mk .BT2020 .PQ .BT2020_NCL true none).transfer_function = .HLG)) ∧
    ((build_colorspace_filter ⟨.BT2020, .PQ, .BT2020_NCL, true, none⟩ none true).1 = none ↔
      (VideoColorInfo.mk .BT2020 .PQ .BT2020_NCL true none).needs_conversion = false) :=
  ⟨by decide, C2_filter_none_iff ⟨.BT2020, .PQ, .BT2020_NCL, true, none⟩ none true (by decide)⟩

/-- Claim C3: the three categorical mapping functions are total Lean
functions into closed inductive types, and every value whose lowercase form
is not one of the recognised keys — in particular the empty string — is
mapped to the `UNKNOWN` variant. -/
theorem C3_mappings_default_unknown (value : String) :
    (lowerStr value ∉ (["bt709", "bt2020", "smpte432"] : List String) →
      map_color_primaries value = .UNKNOWN) ∧
    (lowerStr value ∉ (["bt709", "iec61966-2-1", "smpte2084", "arib-std-b67"] : List String) →
      map_transfer_function value = .UNKNOWN) ∧
    (lowerStr value ∉ (["bt709", "bt2020nc", "bt2020c"] : List String) →
      map_color_matrix value = .UNKNOWN) := by
  refine ⟨fun h => ?_, fun h => ?_, fun h => ?_⟩
  · simp only [List.mem_cons, List.not_mem_nil, or_false, not_or] at h
    unfold map_color_primaries
    split_ifs <;> simp_all
  · simp only [List.mem_cons, List.not_mem_nil, or_false, not_or] at h
    unfold map_transfer_function
    split_ifs <;> simp_all
  · simp only [List.mem_cons, List.not_mem_nil, or_false, not_or] at h
    unfold map_color_matrix
    split_ifs <;> simp_all

/-- Claim C3, witness: an unrecognised value maps to `UNKNOWN` in all three
mapping functions. -/
theorem C3_mappings_default_unknown_witness :
    map_color_primaries "weird" = .UNKNOWN ∧
    map_transfer_function "weird" = .UNKNOWN ∧
    map_color_matrix "weird" = .UNKNOWN :=
  ⟨(C3_mappings_default_unknown "weird").1 (by decide),
   (C3_mappings_default_unknown "weird").2.1 (by decide),
   (C3_mappings_default_unknown "weird").2.2 (by decide)⟩

/-- Claim C4: `detect_color_space` is total, and on every failing probe
outcome (non-zero exit, timeout, missing executable, OS error, unparseable
JSON) as well as on an empty stream list it returns the default info, whose
three categorical fields are `UNKNOWN`, whose HDR flag is false and whose
peak luminance is absent. -/
theorem C4_detect_failure_default (pf : String → Option ℚ) :
    detect_color_space pf .nonzeroExit = default_color_info ∧
    detect_color_space pf .timeoutExpired = default_color_info ∧
    detect_color_space pf .fileNotFound = default_color_info ∧
    detect_color_space pf .osError = default_color_info ∧
    detect_color_space pf .jsonDecodeError = default_color_info ∧
    detect_color_space pf (.ok []) = default_color_info ∧
    default_color_info =
      { color_primaries := .UNKNOWN, transfer_function := .UNKNOWN,
        color_matrix := .UNKNOWN, is_hdr := false, max_luminance := none } :=
  ⟨rfl, rfl, rfl, rfl, rfl, rfl, rfl⟩

/-- Claim C6: `embed_gps_in_jpeg` is a total boolean-valued function, and it
returns `true` exactly when the file exists, loading did not fail with an
error other than the handled invalid-image case, and both the EXIF dump and
the insertion succeed; in every other case — in particular whenever the file
does not exist — it returns `false`. -/
theorem C6_embed_success_iff (env : JpegEnv) (gps : GPSData) :
    embed_gps_in_jpeg env gps = true ↔
      env.fileExists = true ∧ env.load ≠ .otherError ∧
      env.dumpOk = true ∧ env.insertOk = true := by
  obtain ⟨e, l, d, i⟩ := env
  cases e <;> cases l <;> cases d <;> cases i <;> simp [embed_gps_in_jpeg]

/-- Claim C7, counterexample: with the same `VideoColorInfo` and the same
fresh-probe input, `build_colorspace_filter` returns different filter strings
under different states of the module-global zscale cache, so its result is
not a function of an explicitly passed capability-probe argument. -/
theorem C7_counterexample :
    (build_colorspace_filter ⟨.BT2020, .PQ, .BT2020_NCL, true, none⟩ (some true) false).1 ≠
    (build_colorspace_filter ⟨.BT2020, .PQ, .BT2020_NCL, true, none⟩ (some false) false).1 := by
  decide

/-- Claim C7, amended: the zscale capability check is ambient module-global
mutable state, not a construction-time argument: for HDR input the filter
string returned by `build_colorspace_filter` is determined by the cached
availability value (or by a fresh probe on a cache miss), and the cache is
updated as a side effect. -/
theorem C7_hdr_filter_from_cache (i : VideoColorInfo) (cache : Option Bool)
    (probe : Bool) (h : i.is_hdr = true) :
    (build_colorspace_filter i cache probe).1 =
      some (if (is_zscale_available cache probe).1 then hdr_filter_zscale
            else hdr_filter_fallback) ∧
    (build_colorspace_filter i cache probe).2 = (is_zscale_available cache probe).2 := by
  have hc : i.needs_conversion = true := by
    unfold VideoColorInfo.needs_conversion
    simp [h]
  constructor <;>
    simp [build_colorspace_filter, hc, h, build_hdr_to_sdr_filter]

/-- Claim C7, witness: the amended theorem applied to an HDR info with a
populated cache. -/
theorem C7_hdr_filter_from_cache_witness :
    (VideoColorInfo.mk .BT2020 .PQ .BT2020_NCL true none).is_hdr = true ∧
    ((build_colorspace_filter ⟨.BT2020, .PQ, .BT2020_NCL, true, none⟩ (some false) true).1 =
      some (if (is_zscale_available (some false) true).1 then hdr_filter_zscale
            else hdr_filter_fallback)) :=
  ⟨rfl, (C7_hdr_filter_from_cache ⟨.BT2020, .PQ, .BT2020_NCL, true, none⟩
    (some false) true rfl).1⟩

/-- Claim C8: the HDR flag computed by the stream parser is true exactly when
the mapped transfer function is PQ or HLG, and two streams with the same
`color_transfer` field get the same HDR flag regardless of their primaries,
matrix, side data, or the float parser in use. -/
theorem C8_hdr_from_transfer_only (pf pf2 : String → Option ℚ) (s s2 : FFStream) :
    ((parse_color_info pf s).is_hdr = true ↔
      (map_transfer_function (s.color_transfer.getD "unknown") = .PQ ∨
       map_transfer_function (s.color_transfer.getD "unknown") = .HLG)) ∧
    (s.color_transfer = s2.color_transfer →
      (parse_color_info pf s).is_hdr = (parse_color_info pf2 s2).is_hdr) := by
  constructor
  · simp [parse_color_info]
  · intro h
    simp [parse_color_info, h]

/-- Claim C8, witness: the theorem applied to two streams sharing only the
transfer field, one with HDR mastering side data and one without. -/
theorem C8_hdr_from_transfer_only_witness :
    ((parse_color_info pfSample
        ⟨some "bt2020", some "smpte2084", some "bt2020nc",
         [⟨some "Mastering display metadata", some "10000000/10000"⟩]⟩).is_hdr = true ↔
      (map_transfer_function ((some "smpte2084").getD "unknown") = .PQ ∨
       map_transfer_function ((some "smpte2084").getD "unknown") = .HLG)) ∧
    (parse_color_info pfSample
        ⟨some "bt2020", some "smpte2084", some "bt2020nc",
         [⟨some "Mastering display metadata", some "10000000/10000"⟩]⟩).is_hdr =
      (parse_color_info (fun _ => none) ⟨none, some "smpte2084", none, []⟩).is_hdr :=
  ⟨(C8_hdr_from_transfer_only pfSample pfSample
      ⟨some "bt2020", some "smpte2084", some "bt2020nc",
       [⟨some "Mastering display metadata", some "10000000/10000"⟩]⟩
      ⟨some "bt2020", some "smpte2084", some "bt2020nc",
       [⟨some "Mastering display metadata", some "10000000/10000"⟩]⟩).1,
   (C8_hdr_from_transfer_only pfSample (fun _ => none)
      ⟨some "bt2020", some "smpte2084", some "bt2020nc",
       [⟨some "Mastering display metadata", some "10000000/10000"⟩]⟩
      ⟨none, some "smpte2084", none, []⟩).2 rfl⟩

/-- Claim C9: the GPS IFD built by the EXIF writer encodes hemisphere
references from the coordinate signs — "N"/"S" by the sign of latitude,
"E"/"W" by the sign of longitude, altitude reference 0/1 by the sign of
altitude — and stores the DMS and altitude magnitudes computed from the
absolute values of the coordinates. -/
theorem C9_hemisphere_refs_and_magnitudes (gps : GPSData) :
    ((build_gps_ifd gps).latitude_ref = "N" ↔ 0 ≤ gps.latitude) ∧
    ((build_gps_ifd gps).latitude_ref = "S" ↔ gps.latitude < 0) ∧
    ((build_gps_ifd gps).longitude_ref = "E" ↔ 0 ≤ gps.longitude) ∧
    ((build_gps_ifd gps).longitude_ref = "W" ↔ gps.longitude < 0) ∧
    ((build_gps_ifd gps).altitude_ref = 0 ↔ 0 ≤ gps.altitude) ∧
    ((build_gps_ifd gps).altitude_ref = 1 ↔ gps.altitude < 0) ∧
    (build_gps_ifd gps).latitude = decimal_to_dms |gps.latitude| ∧
    (build_gps_ifd gps).longitude = decimal_to_dms |gps.longitude| ∧
    (build_gps_ifd gps).altitude = (⌊|gps.altitude| * 100⌋, 100) := by
  refine ⟨?_, ?_, ?_, ?_, ?_, ?_, ?_, ?_, ?_⟩ <;>
    simp only [build_gps_ifd, decimal_to_dms, abs_abs, ge_iff_le] <;>
    split_ifs with hsign <;> simp_all

/-- Any GPS record produced by `parse_iso6709` leaves `accuracy` at its
`none` default. -/
theorem parse_iso6709_accuracy_eq_none (pf : String → Option ℚ) (s : String)
    (g : GPSData) (h : parse_iso6709 pf s = some g) : g.accuracy = none := by
  unfold parse_iso6709 at h
  split at h
  · exact absurd h (by simp)
  · split at h
    · exact absurd h (by simp)
    · split at h
      · rw [Option.some.injEq] at h
        subst h
        rfl
      · exact absurd h (by simp)

/-- Claim C5: `extract_gps_from_video` is a total `Option`-valued function:
every failing probe outcome gives `none`; a missing or empty ISO 6709
location tag gives `none`; a location tag the ISO 6709 parser rejects gives
`none`; and in a successful result the accuracy field is populated only when
the accuracy tag is present and parses as a number, while an unparseable
accuracy tag leaves the field empty without affecting the result. -/
theorem C5_extract_gps_guarded (pf : String → Option ℚ) (tags : FormatTags) :
    (extract_gps_from_video pf .nonzeroExit = none ∧
     extract_gps_from_video pf .timeoutExpired = none ∧
     extract_gps_from_video pf .fileNotFound = none ∧
     extract_gps_from_video pf .osError = none ∧
     extract_gps_from_video pf .jsonDecodeError = none) ∧
    (tags.location_iso6709 = none → extract_gps_from_video pf (.ok tags) = none) ∧
    (∀ loc, tags.location_iso6709 = some loc → parse_iso6709 pf loc = none →
      extract_gps_from_video pf (.ok tags) = none) ∧
    (∀ g a, extract_gps_from_video pf (.ok tags) = some g → g.accuracy = some a →
      ∃ s, tags.accuracy_horizontal = some s ∧ pf s = some a) ∧
    (∀ s, tags.accuracy_horizontal = some s → pf s = none →
      ∀ g, extract_gps_from_video pf (.ok tags) = some g → g.accuracy = none) := by
  obtain ⟨loc?, acc?⟩ := tags
  refine ⟨⟨rfl, rfl, rfl, rfl, rfl⟩, ?_, ?_, ?_, ?_⟩
  · intro h
    subst h
    rfl
  · intro loc hloc hparse
    cases hloc
    simp only [extract_gps_from_video]
    split_ifs with he
    · rfl
    · rw [hparse]
  · intro g a hg hacc
    cases loc? with
    | none => simp [extract_gps_from_video] at hg
    | some loc =>
      simp only [extract_gps_from_video] at hg
      split_ifs at hg with he
      cases hp : parse_iso6709 pf loc with
      | none =>
        rw [hp] at hg
        simp at hg
      | some gps =>
        rw [hp] at hg
        dsimp only at hg
        cases acc? with
        | none =>
          rw [Option.some.injEq] at hg
          subst hg
          rw [parse_iso6709_accuracy_eq_none pf _ _ hp] at hacc
          exact absurd hacc (by simp)
        | some s =>
          dsimp only at hg
          split_ifs at hg with hs
          · rw [Option.some.injEq] at hg
            subst hg
            rw [parse_iso6709_accuracy_eq_none pf _ _ hp] at hacc
            exact absurd hacc (by simp)
          · cases hps : pf s with
            | none =>
              rw [hps] at hg
              dsimp only at hg
              rw [Option.some.injEq] at hg
              subst hg
              rw [parse_iso6709_accuracy_eq_none pf _ _ hp] at hacc
              exact absurd hacc (by simp)
            | some a2 =>
              rw [hps] at hg
              dsimp only at hg
              rw [Option.some.injEq] at hg
              subst hg
              simp only at hacc
              rw [Option.some.injEq] at hacc
              subst hacc
              exact ⟨s, rfl, hps⟩
  · intro s hs hps g hg
    cases hs
    cases loc? with
    | none => simp [extract_gps_from_video] at hg
    | some loc =>
      simp only [extract_gps_from_video] at hg
      split_ifs at hg with he hstr
      · cases hp : parse_iso6709 pf loc with
        | none => rw [hp] at hg; simp at hg
        | some gps =>
          rw [hp] at hg
          dsimp only at hg
          rw [Option.some.injEq] at hg
          subst hg
          exact parse_iso6709_accuracy_eq_none pf _ _ hp
      · cases hp : parse_iso6709 pf loc with
        | none => rw [hp] at hg; simp at hg
        | some gps =>
          rw [hp, hps] at hg
          dsimp only at hg
          rw [Option.some.injEq] at hg
          subst hg
          exact parse_iso6709_accuracy_eq_none pf _ _ hp

/-- Claim C5, witness: the guards of the GPS extractor applied at concrete
inputs — a timed-out probe, and a tag set whose accuracy tag does not parse,
whose extracted record carries no accuracy. -/
theorem C5_extract_gps_guarded_witness :
    extract_gps_from_video pfSample .timeoutExpired = none ∧
    pfSample "bogus" = none ∧
    GPSData.accuracy ⟨21 / 2, 21 / 2, 0, none⟩ = none :=
  ⟨(C5_extract_gps_guarded pfSample ⟨some "+10.5+010.5/", some "bogus"⟩).1.2.1,
   rfl,
   (C5_extract_gps_guarded pfSample ⟨some "+10.5+010.5/", some "bogus"⟩).2.2.2.2
     "bogus" rfl rfl ⟨21 / 2, 21 / 2, 0, none⟩ rfl⟩

/-- Claim C10: `parse_iso6709` returns `none` on the empty string and on
every string the ISO 6709 pattern rejects, and every accepted string whose
match has no altitude group yields a record with altitude exactly `0` and no
accuracy. -/
theorem C10_no_altitude_defaults (pf : String → Option ℚ) (s : String) :
    (parse_iso6709 pf "" = none) ∧
    (iso6709Match (stripChars s.data) = none → parse_iso6709 pf s = none) ∧
    (∀ g1 g2 g, iso6709Match (stripChars s.data) = some (g1, g2, none) →
      parse_iso6709 pf s = some g → g.altitude = 0 ∧ g.accuracy = none) := by
  refine ⟨rfl, ?_, ?_⟩
  · intro hm
    unfold parse_iso6709
    split_ifs with he
    · rfl
    · rw [hm]
  · intro g1 g2 g hm hp
    unfold parse_iso6709 at hp
    split_ifs at hp with he
    rw [hm] at hp
    dsimp only at hp
    cases h1 : pf g1 with
    | none => rw [h1] at hp; simp at hp
    | some lat =>
      cases h2 : pf g2 with
      | none => rw [h1, h2] at hp; simp at hp
      | some lon =>
        rw [h1, h2] at hp
        dsimp only at hp
        rw [Option.some.injEq] at hp
        subst hp
        exact ⟨rfl, rfl⟩

/-- Claim C10, witness: the theorem applied to a concrete location string
without an altitude group and to a concrete non-matching string. -/
theorem C10_no_altitude_defaults_witness :
    iso6709Match (stripChars "+10.5+010.5/".data) = some ("+10.5", "+010.5", none) ∧
    (GPSData.altitude ⟨21 / 2, 21 / 2, 0, none⟩ = 0 ∧
     GPSData.accuracy ⟨21 / 2, 21 / 2, 0, none⟩ = none) ∧
    iso6709Match (stripChars "abc".data) = none ∧
    parse_iso6709 pfSample "abc" = none :=
  ⟨rfl,
   (C10_no_altitude_defaults pfSample "+10.5+010.5/").2.2 "+10.5" "+010.5"
     ⟨21 / 2, 21 / 2, 0, none⟩ rfl rfl,
   rfl,
   (C10_no_altitude_defaults pfSample "abc").2.1 rfl⟩

/-- A result of the running-maximum step is the previous accumulator or the
new element. -/
theorem maxStep_eq_some (acc : Option (ℕ × ℚ)) (p q : ℕ × ℚ)
    (h : maxStep acc p = some q) : acc = some q ∨ q = p := by
  cases acc with
  | none =>
    right
    rw [maxStep, Option.some.injEq] at h
    exact h.symm
  | some r =>
    rw [maxStep] at h
    split_ifs at h <;> rw [Option.some.injEq] at h
    · right
      exact h.symm
    · left
      rw [h]

/-- A value produced by folding the running-maximum step is the initial
accumulator's value or a member of the list. -/
theorem foldl_maxStep_mem (l : List (ℕ × ℚ)) :
    ∀ acc q, l.foldl maxStep acc = some q → acc = some q ∨ q ∈ l := by
  induction l with
  | nil =>
    intro acc q h
    exact Or.inl h
  | cons a l ih =>
    intro acc q h
    rcases ih (maxStep acc a) q h with h1 | h2
    · rcases maxStep_eq_some acc a q h1 with h3 | h4
      · exact Or.inl h3
      · exact Or.inr (by rw [h4]; exact List.mem_cons_self a l)
    · exact Or.inr (List.mem_cons_of_mem a h2)

/-- The running-maximum step never returns `none`. -/
theorem maxStep_isSome (acc : Option (ℕ × ℚ)) (p : ℕ × ℚ) :
    (maxStep acc p).isSome = true := by
  cases acc with
  | none => rfl
  | some q =>
    rw [maxStep]
    split_ifs <;> rfl

/-- Folding the running-maximum step from a present accumulator stays
present. -/
theorem foldl_maxStep_isSome_of (l : List (ℕ × ℚ)) :
    ∀ acc, acc.isSome = true → (l.foldl maxStep acc).isSome = true := by
  induction l with
  | nil =>
    intro acc h
    exact h
  | cons a l ih =>
    intro acc _
    exact ih (maxStep acc a) (maxStep_isSome acc a)

/-- A window's best candidate lies inside the window and is usable. -/
theorem bestInWindow_mem (cands : CandidateSet) (start len : ℕ) (p : ℕ × ℚ)
    (h : bestInWindow cands start len = some p) :
    start ≤ p.1 ∧ p.1 < start + len ∧ usableAt cands p.1 = true := by
  rcases foldl_maxStep_mem _ none p h with h1 | h2
  · exact absurd h1 (by simp)
  · rw [List.mem_filterMap] at h2
    obtain ⟨i, hi, hf⟩ := h2
    rw [List.mem_range'_1] at hi
    cases hc : cands.getD i none with
    | none =>
      rw [hc] at hf
      exact absurd hf (by simp)
    | some sc =>
      rw [hc] at hf
      rw [Option.map_some', Option.some.injEq] at hf
      rw [← hf]
      refine ⟨hi.1, hi.2, ?_⟩
      simp only [usableAt]
      rw [hc]
      rfl

/-- A nonempty window whose first index is usable has a best candidate. -/
theorem bestInWindow_isSome (cands : CandidateSet) (start len : ℕ)
    (hlen : 0 < len) (hu : usableAt cands start = true) :
    (bestInWindow cands start len).isSome = true := by
  obtain ⟨sc, hsc⟩ : ∃ sc, cands.getD start none = some sc := by
    cases hcg : cands.getD start none with
    | none =>
      rw [usableAt, hcg] at hu
      exact absurd hu (by simp)
    | some sc => exact ⟨sc, rfl⟩
  obtain ⟨l2, rfl⟩ : ∃ l2, len = l2 + 1 := ⟨len - 1, by omega⟩
  rw [bestInWindow, List.range'_succ, List.filterMap_cons, hsc]
  dsimp only [Option.map_some']
  rw [List.foldl_cons]
  exact foldl_maxStep_isSome_of _ _ (maxStep_isSome none _)

/-- Every index kept by the window walk lies in the covered index span and
is usable. -/
theorem selectGo_subset (cands : CandidateSet) :
    ∀ (sizes : List ℕ) (start j : ℕ), j ∈ selectGo cands sizes start →
      start ≤ j ∧ j < start + sizes.sum ∧ usableAt cands j = true := by
  intro sizes
  induction sizes with
  | nil =>
    intro start j h
    simp [selectGo] at h
  | cons len rest ih =>
    intro start j h
    rw [selectGo] at h
    revert h
    cases hb : bestInWindow cands start len with
    | none =>
      intro h
      obtain ⟨ha, hbnd, hus⟩ := ih (start + len) j h
      rw [List.sum_cons]
      exact ⟨by omega, by omega, hus⟩
    | some p =>
      intro h
      rw [List.sum_cons]
      rcases List.mem_cons.mp h with h1 | h2
      · obtain ⟨hp1, hp2, hp3⟩ := bestInWindow_mem cands start len p hb
        rw [h1]
        exact ⟨hp1, by omega, hp3⟩
      · obtain ⟨ha, hbnd, hus⟩ := ih (start + len) j h2
        exact ⟨by omega, by omega, hus⟩

/-- The window walk returns a strictly increasing index list. -/
theorem selectGo_sorted (cands : CandidateSet) :
    ∀ (sizes : List ℕ) (start : ℕ),
      List.Sorted (· < ·) (selectGo cands sizes start) := by
  intro sizes
  induction sizes with
  | nil =>
    intro start
    simp [selectGo]
  | cons len rest ih =>
    intro start
    rw [selectGo]
    cases hb : bestInWindow cands start len with
    | none => exact ih (start + len)
    | some p =>
      rw [List.sorted_cons]
      refine ⟨fun b hbmem => ?_, ih (start + len)⟩
      have h1 := (bestInWindow_mem cands start len p hb).2.1
      have h2 := (selectGo_subset cands rest (start + len) b hbmem).1
      omega

/-- The window walk keeps at most one index per window. -/
theorem selectGo_length_le (cands : CandidateSet) :
    ∀ (sizes : List ℕ) (start : ℕ),
      (selectGo cands sizes start).length ≤ sizes.length := by
  intro sizes
  induction sizes with
  | nil =>
    intro start
    simp [selectGo]
  | cons len rest ih =>
    intro start
    rw [selectGo]
    cases hb : bestInWindow cands start len with
    | none =>
      refine le_trans (ih (start + len)) ?_
      simp
    | some p =>
      rw [List.length_cons, List.length_cons]
      exact Nat.succ_le_succ (ih (start + len))

/-- With every candidate usable, the window walk keeps exactly one index per
nonempty window. -/
theorem selectGo_length_all_usable (cands : CandidateSet)
    (hu : ∀ i, i < cands.length → usableAt cands i = true) :
    ∀ (sizes : List ℕ) (start : ℕ), start + sizes.sum = cands.length →
      (selectGo cands sizes start).length =
        sizes.countP (fun l => decide (0 < l)) := by
  intro sizes
  induction sizes with
  | nil =>
    intro start h
    simp [selectGo]
  | cons len rest ih =>
    intro start h
    rw [List.sum_cons] at h
    rcases Nat.eq_zero_or_pos len with h0 | hpos
    · subst h0
      have e : selectGo cands (0 :: rest) start = selectGo cands rest (start + 0) := rfl
      rw [e, ih (start + 0) (by omega), List.countP_cons]
      simp
    · have hsome := bestInWindow_isSome cands start len hpos (hu start (by omega))
      obtain ⟨p, hb⟩ := Option.isSome_iff_exists.mp hsome
      rw [selectGo, hb]
      dsimp only
      rw [List.length_cons, ih (start + len) (by omega), List.countP_cons]
      simp [hpos]

/-- The windows of the ceil/floor split cover exactly the candidate range. -/
theorem range_map_sum_split (c r : ℕ) :
    ∀ k, ((List.range k).map (fun i => c + if i < r then 1 else 0)).sum =
      k * c + min r k := by
  intro k
  induction k with
  | zero => simp
  | succ m ih =>
    rw [List.range_succ, List.map_append, List.sum_append, ih]
    simp only [List.map_cons, List.map_nil, List.sum_cons, List.sum_nil]
    rw [Nat.succ_mul]
    split_ifs with h <;> omega

/-- The window sizes sum to the number of candidates. -/
theorem windowSizes_sum (n k : ℕ) (hk : 0 < k) : (windowSizes n k).sum = n := by
  rw [windowSizes, range_map_sum_split]
  have h1 : n % k < k := Nat.mod_lt _ hk
  have h2 := Nat.div_add_mod n k
  rw [Nat.min_eq_left (le_of_lt h1)]
  omega

/-- Counting the indices below `n` in `range k` gives `min n k`. -/
theorem countP_range_lt (n : ℕ) :
    ∀ k, (List.range k).countP (fun i => decide (i < n)) = min n k := by
  intro k
  induction k with
  | zero => simp
  | succ m ih =>
    rw [List.range_succ, List.countP_append, ih]
    by_cases h : m < n <;> simp [List.countP_cons, h] <;> omega

/-- Exactly `min k n` of the `k` windows over `n` candidates are nonempty. -/
theorem windowSizes_countP (n k : ℕ) (hk : 0 < k) :
    (windowSizes n k).countP (fun l => decide (0 < l)) = min k n := by
  rw [windowSizes, List.countP_map]
  rcases Nat.lt_or_ge n k with hlt | hge
  · have hc : ∀ i ∈ List.range k,
        (((fun l => decide (0 < l)) ∘ fun i => n / k + if i < n % k then 1 else 0) i = true ↔
          (fun i => decide (i < n)) i = true) := by
      intro i _
      simp only [Function.comp, Nat.div_eq_of_lt hlt, Nat.mod_eq_of_lt hlt]
      by_cases h : i < n <;> simp [h]
    rw [List.countP_congr hc, countP_range_lt]
    omega
  · rw [List.countP_eq_length.mpr]
    · rw [List.length_range]
      omega
    · intro i _
      have h1 : 1 ≤ n / k := (Nat.one_le_div_iff hk).mpr hge
      simp only [Function.comp]
      simp
      omega

/-- A candidate set whose usable count equals its length is usable
everywhere. -/
theorem all_usable_of_usableCount_eq (cands : CandidateSet)
    (h : usableCount cands = cands.length) :
    ∀ i, i < cands.length → usableAt cands i = true := by
  intro i hi
  have hsub : List.Sublist ((List.range cands.length).filter (usableAt cands))
      (List.range cands.length) := List.filter_sublist _
  have hlen : ((List.range cands.length).filter (usableAt cands)).length =
      (List.range cands.length).length := by
    rw [List.length_range]
    exact h
  have heq := hsub.eq_of_length hlen
  have hmem : i ∈ (List.range cands.length).filter (usableAt cands) := by
    rw [heq]
    exact List.mem_range.mpr hi
  exact (List.mem_filter.mp hmem).2

/-- Claim C1, counterexample: two usable candidates sharing the first of two
windows while the second window is entirely unusable give a selection of
size 1, strictly below `min(K, usable count) = 2`, refuting the equality as
stated. -/
theorem C1_counterexample :
    (0 < 2) ∧
    (select_frames [some 1, some 2, none, none] 2).length ≠
      min 2 (usableCount [some 1, some 2, none, none]) := by
  constructor
  · decide
  · decide

/-- Claim C1, amended: for every scored candidate set and target `K > 0` the
Frame Selector keeps at most `min(K, usable count)` indices — in particular
at most `K` — and keeps exactly `min(K, N)` when every candidate is usable;
when unusable candidates leave a window without any usable candidate the
size falls below `min(K, usable count)`. -/
theorem C1_selection_size (cands : CandidateSet) (k : ℕ) (hk : 0 < k) :
    (select_frames cands k).length ≤ min k (usableCount cands) ∧
    (usableCount cands = cands.length →
      (select_frames cands k).length = min k cands.length) := by
  constructor
  · rw [le_min_iff]
    constructor
    · have h1 := selectGo_length_le cands (windowSizes cands.length k) 0
      have h2 : (windowSizes cands.length k).length = k := by
        simp [windowSizes]
      rw [select_frames]
      omega
    · have hnd : (select_frames cands k).Nodup :=
        (selectGo_sorted cands (windowSizes cands.length k) 0).nodup
      have hsub : select_frames cands k ⊆ usableIndices cands := by
        intro j hj
        obtain ⟨h1, h2, h3⟩ :=
          selectGo_subset cands (windowSizes cands.length k) 0 j hj
        rw [windowSizes_sum cands.length k hk] at h2
        rw [usableIndices, List.mem_filter]
        exact ⟨List.mem_range.mpr (by omega), h3⟩
      exact (List.subperm_of_subset hnd hsub).length_le
  · intro hall
    have hu := all_usable_of_usableCount_eq cands hall
    rw [select_frames,
      selectGo_length_all_usable cands hu (windowSizes cands.length k) 0
        (by rw [windowSizes_sum cands.length k hk]; omega),
      windowSizes_countP cands.length k hk]

/-- Claim C1, witness: the amended theorem applied to a fully usable
three-candidate set with target 2. -/
theorem C1_selection_size_witness :
    ((select_frames [some 1, some 2, some 3] 2).length ≤
      min 2 (usableCount [some 1, some 2, some 3])) ∧
    (select_frames [some 1, some 2, some 3] 2).length =
      min 2 ([some 1, some 2, some 3] : CandidateSet).length :=
  ⟨(C1_selection_size [some 1, some 2, some 3] 2 (by decide)).1,
   (C1_selection_size [some 1, some 2, some 3] 2 (by decide)).2 (by decide)⟩

end SharpFrames
